import Mathlib

/-!
# Verification of the OpenAI translation-adapter layer

Shallow embedding of the adapter code of this repository:
`OpenAIContentGenerator` (request/response conversion, streaming conversion,
token estimation, embedding extraction, error handling) and `AdapterFactory`
(provider registry, model inference, config validation).

JavaScript runtime behaviour relevant to the embedding:
* truthiness: `""`, `null`/`undefined` are falsy; non-empty strings truthy;
  any array (even empty) is truthy;
* `typeof s === 'string'` distinguishes bare strings from objects;
* `'parts' in content` is false for bare arrays, so an array-of-parts content
  never passes an `'parts' in content` guard;
* `Object.entries` iterates keys in insertion order.
-/

namespace GeminiCli

/-- A JS truthiness test on an optional string: `null`/`undefined` and the
empty string are falsy. -/
def truthy : Option String → Bool
  | none => false
  | some s => s ≠ ""

/-- A Part value as the adapter sees it: a bare string, or an object that may
carry a `text` field (`Part.obj none` is an object with no `text` field; an
empty-string `text` is present but falsy). -/
inductive Part where
  | str (s : String)
  | obj (text : Option String)
deriving DecidableEq, Repr

/-- A `ContentUnion` value: a bare string, a bare array of parts, or a
structured Content object with an optional `role` field and an optional
`parts` array. -/
inductive ContentUnion where
  | str (s : String)
  | parts (ps : List Part)
  | content (role : Option String) (parts : Option (List Part))
deriving DecidableEq, Repr

/-- The `contents` field of a request: a single `ContentUnion` or an array of
them (`Array.isArray` distinguishes the two at runtime). -/
inductive ContentsField where
  | single (c : ContentUnion)
  | list (cs : List ContentUnion)
deriving DecidableEq, Repr

/-- Normalisation `Array.isArray(request.contents) ? request.contents : [request.contents]`. -/
def ContentsField.norm : ContentsField → List ContentUnion
  | .single c => [c]
  | .list cs => cs

/-- `extractTextFromPart`: a bare string is returned as is; an object yields
its `text` field when that is a truthy string, else the empty string. -/
def extractTextFromPart : Part → String
  | .str s => s
  | .obj t => if truthy t then t.getD "" else ""

/-- `extractTextFromContent`: a bare string is returned; an array of parts and
a Content object with a `parts` array concatenate their parts' extracted
texts (falsy texts filtered, joined with no separator); anything else yields
the empty string. -/
def extractTextFromContent : ContentUnion → String
  | .str s => s
  | .parts ps => String.join ((ps.map extractTextFromPart).filter (· ≠ ""))
  | .content _ (some ps) => String.join ((ps.map extractTextFromPart).filter (· ≠ ""))
  | .content _ none => ""

/-- `extractRoleFromContent`: the `role` field of a Content object when it is
a string, else `"user"`. -/
def extractRoleFromContent : ContentUnion → String
  | .content (some r) _ => r
  | _ => "user"

/-- The neutral finish-reason vocabulary produced by `convertFinishReason`. -/
inductive FinishReason where
  | STOP
  | MAX_TOKENS
  | SAFETY
  | OTHER
deriving DecidableEq, Repr

/-- `convertFinishReason`: `if (!reason) return undefined` — under JS
truthiness both `null` and the empty string fall through this guard — then a
case-sensitive switch over `"stop"`, `"length"`, `"content_filter"` with
default `'OTHER'`. -/
def convertFinishReason (reason : Option String) : Option FinishReason :=
  if ¬ truthy reason then none
  else
    let r := reason.getD ""
    if r = "stop" then some .STOP
    else if r = "length" then some .MAX_TOKENS
    else if r = "content_filter" then some .SAFETY
    else some .OTHER

/-- A chat message of the native (OpenAI) shape. -/
structure ChatMessage where
  role : String
  content : String
deriving DecidableEq, Repr

/-- A neutral generation request as `convertToOpenAIMessages` consumes it:
`request.contents` plus `request.config?.systemInstruction`. -/
structure GenerateContentParameters where
  contents : ContentsField
  systemInstruction : Option ContentUnion := none
deriving DecidableEq, Repr

/-- The body of the per-content loop of `convertToOpenAIMessages`: skip the
content when its extracted text is falsy, otherwise push one message whose
role is `assistant` exactly when the content's role is `model`. -/
def contentToMessage (c : ContentUnion) : Option ChatMessage :=
  let text := extractTextFromContent c
  let role := extractRoleFromContent c
  if text = "" then none
  else some ⟨if role = "model" then "assistant" else "user", text⟩

/-- `convertToOpenAIMessages`, written as the source writes it: start from an
empty list, push a system message when the system instruction's extracted
text is truthy, then fold the per-content loop over the (normalised)
contents, pushing at most one message per content. -/
def convertToOpenAIMessages (request : GenerateContentParameters) : List ChatMessage :=
  let messages : List ChatMessage := []
  let messages :=
    match request.systemInstruction with
    | some si =>
      let systemContent := extractTextFromContent si
      if systemContent ≠ "" then messages ++ [⟨"system", systemContent⟩] else messages
    | none => messages
  request.contents.norm.foldl
    (fun acc content =>
      match contentToMessage content with
      | some m => acc ++ [m]
      | none => acc)
    messages

/-- A native non-streaming choice: `choice.message.content` (nullable) and
`choice.finish_reason` (nullable). -/
structure NativeChoice where
  messageContent : Option String
  finish_reason : Option String
deriving DecidableEq, Repr

/-- Native usage counters of a chat completion. -/
structure NativeUsage where
  prompt_tokens : Nat
  completion_tokens : Nat
  total_tokens : Nat
deriving DecidableEq, Repr

/-- A native non-streaming chat completion. -/
structure ChatCompletion where
  choices : List NativeChoice
  usage : Option NativeUsage := none
deriving DecidableEq, Repr

/-- A candidate of the neutral response shape. -/
structure Candidate where
  content : ContentUnion
  finishReason : Option FinishReason
  index : Nat
deriving DecidableEq, Repr

/-- Neutral usage metadata. -/
structure UsageMetadata where
  promptTokenCount : Nat
  candidatesTokenCount : Nat
  totalTokenCount : Nat
deriving DecidableEq, Repr

/-- The neutral generation response. -/
structure GenerateContentResponse where
  candidates : List Candidate
  usageMetadata : Option UsageMetadata := none
deriving DecidableEq, Repr

/-- `convertToGeminiResponse`: reads `response.choices[0]` (on an empty
`choices` array the subsequent `choice.message` access throws at runtime,
modelled as `none`), builds the single candidate with role `model`, a single
text part (`choice.message.content || ''`), the converted finish reason and
index 0, and copies usage counters verbatim when present. -/
def convertToGeminiResponse (response : ChatCompletion) : Option GenerateContentResponse :=
  match response.choices with
  | [] => none
  | choice :: _ =>
    some
      { candidates :=
          [{ content := .content (some "model") (some [.obj (some (choice.messageContent.getD ""))])
             finishReason := convertFinishReason choice.finish_reason
             index := 0 }]
        usageMetadata :=
          response.usage.map fun u =>
            ⟨u.prompt_tokens, u.completion_tokens, u.total_tokens⟩ }

/-- A native streaming choice: `choice.delta?.content` and
`choice.finish_reason`. -/
structure StreamChoice where
  deltaContent : Option String
  finish_reason : Option String
deriving DecidableEq, Repr

/-- A native streaming chunk. -/
structure ChatCompletionChunk where
  choices : List StreamChoice
deriving DecidableEq, Repr

/-- `convertStreamChunkToGeminiResponse`: like the non-streaming converter
but over `choice.delta?.content`, and it never sets usage metadata. -/
def convertStreamChunkToGeminiResponse (chunk : ChatCompletionChunk) : Option GenerateContentResponse :=
  match chunk.choices with
  | [] => none
  | choice :: _ =>
    some
      { candidates :=
          [{ content := .content (some "model") (some [.obj (some (choice.deltaContent.getD ""))])
             finishReason := convertFinishReason choice.finish_reason
             index := 0 }]
        usageMetadata := none }

/-- The yield guard of the `generateContentStream` loop:
`chunk.choices && chunk.choices.length > 0` and then
`choice.delta?.content` truthy. -/
def streamChunkYields (chunk : ChatCompletionChunk) : Bool :=
  match chunk.choices with
  | [] => false
  | choice :: _ => truthy choice.deltaContent

/-- The pure content of `generateContentStream`'s loop over a finite native
stream: each chunk passing the yield guard produces one converted response,
every other chunk is skipped. -/
def generateContentStream (chunks : List ChatCompletionChunk) : List GenerateContentResponse :=
  (chunks.filter streamChunkYields).filterMap convertStreamChunkToGeminiResponse

/-- The inner per-part test of `extractTextFromRequest` and
`extractTextFromEmbedRequest`: the part must be an object whose `text` field
is present and truthy. Returns that text. -/
def truthyObjText : Part → Option String
  | .str _ => none
  | .obj none => none
  | .obj (some t) => if t = "" then none else some t

/-- The content guard of both extraction loops:
`typeof content === 'object' && 'parts' in content && content.parts` —
only a structured Content object with a present `parts` array passes (a bare
string fails `typeof`, a bare array fails `'parts' in`). -/
def contentPartsArray : ContentUnion → Option (List Part)
  | .content _ (some ps) => some ps
  | _ => none

/-- `extractTextFromRequest`: accumulate `part.text + ' '` for every truthy
object text across the (normalised) contents' parts arrays. -/
def extractTextFromRequest (contents : ContentsField) : String :=
  contents.norm.foldl
    (fun text content =>
      match contentPartsArray content with
      | some ps =>
        ps.foldl
          (fun t p =>
            match truthyObjText p with
            | some s => t ++ s ++ " "
            | none => t)
          text
      | none => text)
    ""

/-- `countTokens`: `Math.ceil(text.length / 4)` over the extracted text. -/
def countTokens (contents : ContentsField) : Nat :=
  ((extractTextFromRequest contents).length + 3) / 4

/-- The inner loop of `extractTextFromEmbedRequest` over one content's parts:
`return part.text` at the first truthy object text. -/
def firstTruthyText : List Part → Option String
  | [] => none
  | p :: rest =>
    match truthyObjText p with
    | some t => some t
    | none => firstTruthyText rest

/-- `extractTextFromEmbedRequest`: scan the (normalised) contents in order;
inside the first content whose parts hold a truthy object text, return that
text; otherwise fall through to `''`. -/
def extractTextFromEmbedRequest : List ContentUnion → String
  | [] => ""
  | c :: rest =>
    match contentPartsArray c with
    | some ps =>
      match firstTruthyText ps with
      | some t => t
      | none => extractTextFromEmbedRequest rest
    | none => extractTextFromEmbedRequest rest

/-- The text `embedContent` sends to the vendor embedding call. -/
def embedContentInput (contents : ContentsField) : String :=
  extractTextFromEmbedRequest contents.norm

/-- One data entry of the native embedding response. Embedding values are
opaque numbers copied verbatim; they are modelled as integers. -/
structure EmbeddingData where
  embedding : List Int
deriving DecidableEq, Repr

/-- The native embedding response. -/
structure CreateEmbeddingResponse where
  data : List EmbeddingData
deriving DecidableEq, Repr

/-- One neutral embedding. -/
structure ContentEmbedding where
  values : List Int
deriving DecidableEq, Repr

/-- The neutral embedding response. -/
structure EmbedContentResponse where
  embeddings : List ContentEmbedding
deriving DecidableEq, Repr

/-- The result construction of `embedContent`:
`embeddings: [{ values: response.data[0]?.embedding || [] }]`. -/
def embedContentResult (response : CreateEmbeddingResponse) : EmbedContentResponse :=
  { embeddings :=
      [⟨match response.data with
        | [] => []
        | d :: _ => d.embedding⟩] }

/-- A JavaScript value thrown by a vendor call, as the catch blocks
distinguish it: an `OpenAI.APIError` (which extends `Error`, so it passes
`instanceof Error` too, with its `message` and `status`), any other `Error`,
or a non-`Error` value whose `String(...)` rendering is recorded. -/
inductive ThrownValue where
  | apiError (message : String) (status : Nat)
  | jsError (message : String)
  | other (stringForm : String)
deriving DecidableEq, Repr

/-- A constructed `Error` object, identified by its message. -/
structure JSError where
  message : String
deriving DecidableEq, Repr

/-- `error instanceof Error ? error.message : String(error)` — an
`OpenAI.APIError` is an `Error`, so its plain message is taken (the status
code is not consulted here). -/
def errorMessageOrString : ThrownValue → String
  | .apiError m _ => m
  | .jsError m => m
  | .other s => s

/-- `handleError`: an `OpenAI.APIError` becomes
`OpenAI API Error: {message} ({status})`; any other `Error` is returned
unchanged; anything else becomes `Unknown OpenAI error: {String(error)}`. -/
def handleError : ThrownValue → JSError
  | .apiError m status => ⟨"OpenAI API Error: " ++ m ++ " (" ++ toString status ++ ")"⟩
  | .jsError m => ⟨m⟩
  | .other s => ⟨"Unknown OpenAI error: " ++ s⟩

/-- The catch block of `generateContent`: every thrown value is wrapped in a
fresh error `OpenAI API调用失败: {message-or-string}`. -/
def generateContentCatch (e : ThrownValue) : JSError :=
  ⟨"OpenAI API调用失败: " ++ errorMessageOrString e⟩

/-- The catch block of `generateContentStream`: every thrown value is wrapped
in a fresh error `OpenAI流式API调用失败: {message-or-string}`. -/
def generateContentStreamCatch (e : ThrownValue) : JSError :=
  ⟨"OpenAI流式API调用失败: " ++ errorMessageOrString e⟩

/-!
## Adapter factory: provider registry, inference, validation
-/

/-- The `LLMProvider` enum. Its runtime values are the strings below. -/
inductive LLMProvider where
  | GEMINI
  | OPENAI
  | VERTEX_AI
deriving DecidableEq, Repr

/-- The runtime string value of each enum member. -/
def LLMProvider.value : LLMProvider → String
  | .GEMINI => "gemini"
  | .OPENAI => "openai"
  | .VERTEX_AI => "vertex-ai"

/-- `SUPPORTED_MODELS`: the static registry, per provider, in declaration
order. -/
def SUPPORTED_MODELS : LLMProvider → List String
  | .GEMINI =>
    ["gemini-2.5-pro", "gemini-2.5-flash", "gemini-1.5-pro", "gemini-1.5-flash"]
  | .OPENAI =>
    ["gpt-4", "gpt-4-turbo", "gpt-4o", "gpt-4o-mini", "gpt-3.5-turbo"]
  | .VERTEX_AI =>
    ["gemini-2.5-pro", "gemini-2.5-flash", "gemini-1.5-pro", "gemini-1.5-flash"]

/-- The key insertion order of the `SUPPORTED_MODELS` object literal, which
is the order `Object.entries` iterates. -/
def providerDeclarationOrder : List LLMProvider :=
  [.GEMINI, .OPENAI, .VERTEX_AI]

/-- `AdapterFactory.inferProviderFromModel`: iterate
`Object.entries(SUPPORTED_MODELS)` in declaration order and return the first
provider whose model list contains the exact model string; `null` when none
does. -/
def inferProviderFromModel (model : String) : Option LLMProvider :=
  providerDeclarationOrder.find? fun p => model ∈ SUPPORTED_MODELS p

/-- `AdapterFactory.getSupportedProviders`: `Object.values(LLMProvider)`, as
runtime strings. -/
def getSupportedProviders : List String :=
  ["gemini", "openai", "vertex-ai"]

/-- An `AdapterConfig` as `validateConfig` inspects it at runtime: the
`provider` field may be absent, and (the TS type notwithstanding) is an
arbitrary string when present; `apiKey` and `model` are strings. -/
structure AdapterConfig where
  provider : Option String := none
  apiKey : String := ""
  model : String := ""
deriving DecidableEq, Repr

/-- The result of `validateConfig`. -/
structure ValidationResult where
  valid : Bool
  errors : List String
deriving DecidableEq, Repr

/-- `AdapterFactory.validateConfig`: push `"Provider is required"` when
`config.provider` is falsy, `"API key is required"` when `config.apiKey` is
falsy, `"Model is required"` when `config.model` is falsy, and
`"Unsupported provider: {provider}"` when the provider is truthy but not
among the enum values; `valid` is `errors.length === 0`. -/
def validateConfig (config : AdapterConfig) : ValidationResult :=
  let errors : List String := []
  let errors := if ¬ truthy config.provider then errors ++ ["Provider is required"] else errors
  let errors := if config.apiKey = "" then errors ++ ["API key is required"] else errors
  let errors := if config.model = "" then errors ++ ["Model is required"] else errors
  let errors :=
    if truthy config.provider ∧ config.provider.getD "" ∉ getSupportedProviders then
      errors ++ ["Unsupported provider: " ++ config.provider.getD ""]
    else errors
  ⟨errors = [], errors⟩

/-- The sequence of part texts that the token-count extraction collects: for
each (normalised) content that is an object with a `parts` array, every part
that is an object with a truthy `text` field, in order. -/
def extractedTexts (contents : ContentsField) : List String :=
  contents.norm.flatMap fun content =>
    ((contentPartsArray content).getD []).filterMap truthyObjText

/-- Spec-side definition, following the claim's words for comparison with
`countTokens`: `totalTokens = ceil(characterLength / 4)` where
`characterLength` is the length of the space-joined extracted text (texts
joined with a single space between consecutive texts). -/
def countTokensSpaceJoined (contents : ContentsField) : Nat :=
  ((String.intercalate " " (extractedTexts contents)).length + 3) / 4

/-!
## Concrete fixtures used by the testable properties
-/

/-- The native stream of §8's streaming property: incremental texts
`"a"`, `"b"`, `""` with finish reasons null, null, `"stop"`. -/
def streamFixture : List ChatCompletionChunk :=
  [⟨[⟨some "a", none⟩]⟩, ⟨[⟨some "b", none⟩]⟩, ⟨[⟨some "", some "stop"⟩]⟩]

/-- The neutral response the stream converter builds for incremental text
`t` under finish reason `fr`. -/
def streamTextResponse (t : String) (fr : Option FinishReason) : GenerateContentResponse :=
  { candidates :=
      [{ content := .content (some "model") (some [.obj (some t)])
         finishReason := fr
         index := 0 }]
    usageMetadata := none }

/-!
## Theorems
-/

/-- C1 counterexample: the empty string is a non-null native finish reason,
yet `convertFinishReason` maps it to unset (no field emitted), not `OTHER`,
because the JavaScript guard `if (!reason)` also catches the falsy empty
string. -/
theorem convertFinishReason_empty_not_OTHER :
    convertFinishReason (some "") = none ∧
    convertFinishReason (some "") ≠ some FinishReason.OTHER := by
  constructor <;> decide

/-- C1 (amended): `convertFinishReason` maps `"stop"` to STOP, `"length"` to
MAX_TOKENS, `"content_filter"` to SAFETY, null/absent and the empty string
to unset (no field emitted), and every other non-empty string to OTHER,
case-sensitively; it is a total function of the string-or-null input. -/
theorem convertFinishReason_mapping :
    convertFinishReason none = none ∧
    convertFinishReason (some "") = none ∧
    convertFinishReason (some "stop") = some FinishReason.STOP ∧
    convertFinishReason (some "length") = some FinishReason.MAX_TOKENS ∧
    convertFinishReason (some "content_filter") = some FinishReason.SAFETY ∧
    ∀ s : String, s ≠ "" → s ≠ "stop" → s ≠ "length" → s ≠ "content_filter" →
      convertFinishReason (some s) = some FinishReason.OTHER := by
  refine ⟨by decide, by decide, by decide, by decide, by decide, ?_⟩
  intro s hne hstop hlen hcf
  simp [convertFinishReason, truthy, hne, hstop, hlen, hcf]

/-- C1 witness: the unrecognized native reason `"tool_calls"` maps to
`OTHER`. -/
theorem convertFinishReason_mapping_witness :
    convertFinishReason (some "tool_calls") = some FinishReason.OTHER :=
  convertFinishReason_mapping.2.2.2.2.2 "tool_calls"
    (by decide) (by decide) (by decide) (by decide)

/-- C2 counterexample: on the native stream with texts `"a"`, `"b"`, `""`
and finish reasons null, null, `"stop"`, `generateContentStream` does yield
exactly two responses, but the second carries no finishReason at all: the
final chunk, which held `"stop"`, is skipped for its empty text, so its
finish reason is dropped rather than surfaced as STOP. -/
theorem generateContentStream_fixture_no_STOP :
    (generateContentStream streamFixture).length = 2 ∧
    (generateContentStream streamFixture)[1]? = some (streamTextResponse "b" none) ∧
    (streamTextResponse "b" none).candidates.map Candidate.finishReason = [none] := by
  refine ⟨by decide, by decide, by decide⟩

/-- C2 (amended): on the native stream with texts `"a"`, `"b"`, `""` and
finish reasons null, null, `"stop"`, `generateContentStream` yields exactly
the two responses for `"a"` and `"b"`, both with finishReason unset (the
skipped empty-text chunk takes its `"stop"` reason with it); and in general
every yielded response's candidate carries non-empty text (no empty
emissions). -/
theorem generateContentStream_fixture_spec :
    generateContentStream streamFixture =
      [streamTextResponse "a" none, streamTextResponse "b" none] ∧
    ∀ chunks : List ChatCompletionChunk, ∀ r ∈ generateContentStream chunks,
      ∀ c ∈ r.candidates, extractTextFromContent c.content ≠ "" := by
  constructor
  · decide
  · intro chunks r hr c hc
    rw [generateContentStream, List.mem_filterMap] at hr
    obtain ⟨chunk, hmem, hconv⟩ := hr
    rw [List.mem_filter] at hmem
    obtain ⟨-, hyield⟩ := hmem
    obtain ⟨choices⟩ := chunk
    cases choices with
    | nil => exact absurd hyield (by decide)
    | cons choice rest =>
      cases hdc : choice.deltaContent with
      | none =>
        rw [streamChunkYields] at hyield
        simp only [hdc, truthy] at hyield
        exact absurd hyield (by decide)
      | some t =>
        have ht : t ≠ "" := by
          rw [streamChunkYields] at hyield
          simpa [hdc, truthy] using hyield
        rw [convertStreamChunkToGeminiResponse] at hconv
        simp only [Option.some.injEq] at hconv
        subst hconv
        simp only [List.mem_singleton] at hc
        subst hc
        simp [extractTextFromContent, extractTextFromPart, truthy, hdc, ht, String.join]

/-- C2 witness: the first yielded response of the fixture stream has the
non-empty text `"a"`. -/
theorem generateContentStream_fixture_spec_witness :
    extractTextFromContent
      (ContentUnion.content (some "model") (some [Part.obj (some "a")])) ≠ "" :=
  generateContentStream_fixture_spec.2 streamFixture (streamTextResponse "a" none)
    (by decide)
    ⟨ContentUnion.content (some "model") (some [Part.obj (some "a")]), none, 0⟩
    (by decide)

/-- C3: converting the request `contents = [{role: user, parts: [{text:
"hi"}]}]` yields the single native message `user "hi"`; converting a native
response with finish reason `"stop"` yields one candidate with finishReason
STOP, content role `model` and index 0; and every native response this
converter accepts produces exactly one candidate, at index 0, with content
role `model`. -/
theorem convertToGeminiResponse_single_candidate :
    convertToOpenAIMessages
        ⟨.list [.content (some "user") (some [.obj (some "hi")])], none⟩ =
      [⟨"user", "hi"⟩] ∧
    convertToGeminiResponse ⟨[⟨some "hello", some "stop"⟩], none⟩ =
      some
        { candidates :=
            [{ content := .content (some "model") (some [.obj (some "hello")])
               finishReason := some .STOP
               index := 0 }]
          usageMetadata := none } ∧
    ∀ (resp : ChatCompletion) (r : GenerateContentResponse),
      convertToGeminiResponse resp = some r →
        r.candidates.length = 1 ∧
        ∀ c ∈ r.candidates, c.index = 0 ∧ extractRoleFromContent c.content = "model" := by
  refine ⟨by decide, by decide, ?_⟩
  intro resp r h
  obtain ⟨choices, usage⟩ := resp
  cases choices with
  | nil => exact absurd h (by simp [convertToGeminiResponse])
  | cons choice rest =>
    rw [convertToGeminiResponse] at h
    simp only [Option.some.injEq] at h
    subst h
    refine ⟨rfl, ?_⟩
    intro c hc
    simp only [List.mem_singleton] at hc
    subst hc
    exact ⟨rfl, rfl⟩

/-- C3 witness: the concrete native response with finish reason `"stop"`
converts to a response with exactly one candidate, at index 0, with content
role `model`. -/
theorem convertToGeminiResponse_single_candidate_witness :
    (GenerateContentResponse.mk
        [⟨.content (some "model") (some [.obj (some "hello")]), some .STOP, 0⟩]
        none).candidates.length = 1 ∧
    ∀ c ∈ (GenerateContentResponse.mk
        [⟨.content (some "model") (some [.obj (some "hello")]), some .STOP, 0⟩]
        none).candidates,
      c.index = 0 ∧ extractRoleFromContent c.content = "model" :=
  convertToGeminiResponse_single_candidate.2.2
    ⟨[⟨some "hello", some "stop"⟩], none⟩ _ (by decide)

/-- The per-content push loop of `convertToOpenAIMessages`, folded from any
prefix of already-pushed messages, appends exactly the messages of the
contents that convert. -/
theorem foldl_push_contentToMessage (cs : List ContentUnion) (init : List ChatMessage) :
    cs.foldl
        (fun acc content =>
          match contentToMessage content with
          | some m => acc ++ [m]
          | none => acc)
        init = init ++ cs.filterMap contentToMessage := by
  induction cs generalizing init with
  | nil => simp
  | cons c cs ih =>
    cases h : contentToMessage c with
    | none => simp [List.foldl_cons, h, ih, List.filterMap_cons]
    | some m => simp [List.foldl_cons, h, ih, List.filterMap_cons]

/-- C4: the native message list is the optional system message (present
exactly when the system instruction's extracted text is non-empty) followed
by, per content (empty extracted text producing no message), one message
whose role is `assistant` when the content's role is `model` and `user` for
every other role value including unset; a single content behaves as the
one-element sequence. -/
theorem convertToOpenAIMessages_spec :
    (∀ (si : Option ContentUnion) (cs : List ContentUnion),
      convertToOpenAIMessages ⟨.list cs, si⟩ =
        (match si with
         | some s =>
           if extractTextFromContent s = "" then []
           else [ChatMessage.mk "system" (extractTextFromContent s)]
         | none => []) ++
        cs.filterMap fun c =>
          if extractTextFromContent c = "" then none
          else
            some
              (ChatMessage.mk
                (if extractRoleFromContent c = "model" then "assistant" else "user")
                (extractTextFromContent c))) ∧
    ∀ (si : Option ContentUnion) (c : ContentUnion),
      convertToOpenAIMessages ⟨.single c, si⟩ = convertToOpenAIMessages ⟨.list [c], si⟩ := by
  constructor
  · intro si cs
    have hfun :
        (fun c : ContentUnion =>
          if extractTextFromContent c = "" then none
          else
            some
              (ChatMessage.mk
                (if extractRoleFromContent c = "model" then "assistant" else "user")
                (extractTextFromContent c))) = contentToMessage := by
      funext c
      simp [contentToMessage]
    rw [hfun, convertToOpenAIMessages]
    cases si with
    | none => simp [ContentsField.norm, foldl_push_contentToMessage]
    | some s =>
      by_cases h : extractTextFromContent s = "" <;>
        simp [ContentsField.norm, foldl_push_contentToMessage, h]
  · intro si c
    rfl

/-- C4 witness: a single content behaves exactly as the one-element
sequence. -/
theorem convertToOpenAIMessages_spec_witness :
    convertToOpenAIMessages
        ⟨.single (ContentUnion.content (some "model") (some [Part.obj (some "yo")])),
         some (ContentUnion.str "sys")⟩ =
      convertToOpenAIMessages
        ⟨.list [ContentUnion.content (some "model") (some [Part.obj (some "yo")])],
         some (ContentUnion.str "sys")⟩ :=
  convertToOpenAIMessages_spec.2 (some (ContentUnion.str "sys"))
    (ContentUnion.content (some "model") (some [Part.obj (some "yo")]))

/-- C5 counterexample: in `generateContent`, a thrown well-formed error is
not passed through unchanged but re-wrapped with the identifying prefix, and
a structured API error loses its status code there (only its message
survives, `429` appears nowhere). -/
theorem generateContent_rewraps_errors :
    generateContentCatch (.jsError "boom") ≠ JSError.mk "boom" ∧
    generateContentCatch (.apiError "rate limited" 429) =
      JSError.mk "OpenAI API调用失败: rate limited" := by
  constructor <;> decide

/-- C5 (amended): `countTokens` and `embedContent` convert thrown values via
`handleError` — a structured API error becomes an error carrying both the
vendor message and its status code, a well-formed error passes through
unchanged, any other value is wrapped generically. `generateContent` and
`generateContentStream` instead re-raise every thrown value as a single
fresh error prefixed to identify the originating call, built from the
thrown error's message (or its string form), so there even a well-formed
error is re-wrapped and an API error's status code is dropped. -/
theorem handleError_spec :
    (∀ (m : String) (status : Nat),
      handleError (.apiError m status) =
        JSError.mk ("OpenAI API Error: " ++ m ++ " (" ++ toString status ++ ")")) ∧
    (∀ m : String, handleError (.jsError m) = JSError.mk m) ∧
    (∀ s : String, handleError (.other s) = JSError.mk ("Unknown OpenAI error: " ++ s)) ∧
    (∀ e : ThrownValue,
      generateContentCatch e =
        JSError.mk ("OpenAI API调用失败: " ++ errorMessageOrString e)) ∧
    (∀ (m : String) (status : Nat),
      generateContentCatch (.apiError m status) = generateContentCatch (.jsError m)) ∧
    (∀ e : ThrownValue,
      generateContentStreamCatch e =
        JSError.mk ("OpenAI流式API调用失败: " ++ errorMessageOrString e)) := by
  refine ⟨fun m status => rfl, fun m => rfl, fun s => rfl, fun e => rfl,
    fun m status => rfl, fun e => rfl⟩

/-- C5 witness: a well-formed error with message `"boom"` passes through
`handleError` unchanged. -/
theorem handleError_spec_witness :
    handleError (.jsError "boom") = JSError.mk "boom" :=
  handleError_spec.2.1 "boom"

/-- C6 counterexample: the extraction appends a trailing space after every
collected part text, so a single part `"abcd"` yields the five-character
`"abcd "` and `ceil(5/4) = 2` tokens, while the claim's space-joined text
`"abcd"` has four characters and would give `ceil(4/4) = 1`. -/
theorem countTokens_trailing_space :
    countTokens (.list [.content none (some [.obj (some "abcd")])]) = 2 ∧
    countTokensSpaceJoined (.list [.content none (some [.obj (some "abcd")])]) = 1 := by
  constructor <;> decide

/-- The inner per-part loop of `extractTextFromRequest` adds, to the length
of the running text, each collected text's length plus one for its trailing
space. -/
theorem extractTextFromRequest_inner_length (ps : List Part) (t : String) :
    (ps.foldl
        (fun t p =>
          match truthyObjText p with
          | some s => t ++ s ++ " "
          | none => t)
        t).length =
      t.length + ((ps.filterMap truthyObjText).map String.length).sum +
        (ps.filterMap truthyObjText).length := by
  induction ps generalizing t with
  | nil => simp
  | cons p ps ih =>
    cases h : truthyObjText p with
    | none => simp [List.foldl_cons, h, ih, List.filterMap_cons]
    | some s =>
      have hsp : (" " : String).length = 1 := rfl
      simp only [List.foldl_cons, h, ih, List.filterMap_cons, List.map_cons, List.sum_cons,
        List.length_cons, String.length_append, hsp]
      omega

/-- The outer per-content loop of `extractTextFromRequest` adds the lengths
and trailing spaces of all texts collected across the contents. -/
theorem extractTextFromRequest_outer_length (cs : List ContentUnion) (t : String) :
    (cs.foldl
        (fun text content =>
          match contentPartsArray content with
          | some ps =>
            ps.foldl
              (fun t p =>
                match truthyObjText p with
                | some s => t ++ s ++ " "
                | none => t)
              text
          | none => text)
        t).length =
      t.length +
        (((cs.flatMap fun c => ((contentPartsArray c).getD []).filterMap truthyObjText).map
            String.length).sum) +
        (cs.flatMap fun c => ((contentPartsArray c).getD []).filterMap truthyObjText).length := by
  induction cs generalizing t with
  | nil => simp
  | cons c cs ih =>
    cases h : contentPartsArray c with
    | none => simp [List.foldl_cons, h, ih, List.flatMap_cons]
    | some ps =>
      simp only [List.foldl_cons, h, ih, List.flatMap_cons, List.map_append, List.sum_append,
        List.length_append, extractTextFromRequest_inner_length, Option.getD_some]
      omega

/-- The length of the extracted token-count text is the total length of the
collected part texts plus one trailing space per collected text. -/
theorem extractTextFromRequest_length (contents : ContentsField) :
    (extractTextFromRequest contents).length =
      ((extractedTexts contents).map String.length).sum + (extractedTexts contents).length := by
  rw [extractTextFromRequest, extractedTexts]
  simpa using extractTextFromRequest_outer_length contents.norm ""

/-- C6 (amended): `countTokens` returns `ceil(L / 4)` where `L` is the sum
of the collected part texts' lengths plus one per collected text (each text
carries a trailing space); it returns 0 when no text is collected, and it is
monotonically non-decreasing in the extracted text length. -/
theorem countTokens_formula :
    (∀ contents : ContentsField,
      countTokens contents =
        (((extractedTexts contents).map String.length).sum +
          (extractedTexts contents).length + 3) / 4) ∧
    (∀ contents : ContentsField, extractedTexts contents = [] → countTokens contents = 0) ∧
    (∀ c₁ c₂ : ContentsField,
      (extractTextFromRequest c₁).length ≤ (extractTextFromRequest c₂).length →
        countTokens c₁ ≤ countTokens c₂) := by
  refine ⟨?_, ?_, ?_⟩
  · intro contents
    rw [countTokens, extractTextFromRequest_length]
  · intro contents h
    rw [countTokens, extractTextFromRequest_length, h]
    decide
  · intro c₁ c₂ h
    exact Nat.div_le_div_right (Nat.add_le_add_right h 3)

/-- C6 witness: an all-empty-content request counts 0 tokens, and a shorter
request counts no more than a longer one. -/
theorem countTokens_formula_witness :
    countTokens (.list [.content none (some [.obj (some "")])]) = 0 ∧
    countTokens (.list [.content none (some [.obj (some "hi")])]) ≤
      countTokens (.list [.content none (some [.obj (some "hello there")])]) :=
  ⟨countTokens_formula.2.1 (.list [.content none (some [.obj (some "")])]) (by decide),
   countTokens_formula.2.2 (.list [.content none (some [.obj (some "hi")])])
     (.list [.content none (some [.obj (some "hello there")])]) (by decide)⟩

/-- C7: `embedContent` embeds the first non-empty text found scanning the
request's contents and parts in order — in particular, with a first content
of empty text and a second of text `"x"`, it sends `"x"` — and its result is
always a single embedding whose values are the native response's first data
entry's vector, or the empty vector when the native response has no data
entry (never a failure). -/
theorem embedContent_first_nonempty :
    embedContentInput
        (.list [.content (some "user") (some [.obj (some "")]),
                .content (some "user") (some [.obj (some "x")])]) = "x" ∧
    (∀ ps : List Part, firstTruthyText ps = ps.findSome? truthyObjText) ∧
    (∀ cs : List ContentUnion,
      extractTextFromEmbedRequest cs =
        ((cs.findSome? fun c => (contentPartsArray c).bind firstTruthyText).getD "")) ∧
    (∀ resp : CreateEmbeddingResponse, (embedContentResult resp).embeddings.length = 1) ∧
    (∀ (d : EmbeddingData) (rest : List EmbeddingData),
      embedContentResult ⟨d :: rest⟩ = ⟨[⟨d.embedding⟩]⟩) ∧
    embedContentResult ⟨[]⟩ = ⟨[⟨[]⟩]⟩ := by
  refine ⟨by decide, ?_, ?_, ?_, fun d rest => rfl, rfl⟩
  · intro ps
    induction ps with
    | nil => rfl
    | cons p ps ih =>
      cases h : truthyObjText p with
      | none => simp [firstTruthyText, List.findSome?_cons, h, ih]
      | some t => simp [firstTruthyText, List.findSome?_cons, h]
  · intro cs
    induction cs with
    | nil => rfl
    | cons c cs ih =>
      cases hc : contentPartsArray c with
      | none => simp [extractTextFromEmbedRequest, List.findSome?_cons, hc, ih]
      | some ps =>
        cases hf : firstTruthyText ps with
        | none => simp [extractTextFromEmbedRequest, List.findSome?_cons, hc, hf, ih]
        | some t => simp [extractTextFromEmbedRequest, List.findSome?_cons, hc, hf]
  · intro ⟨data⟩
    cases data <;> rfl

/-- C7 witness: a native embedding response with one data entry yields that
entry's vector as the single embedding. -/
theorem embedContent_first_nonempty_witness :
    embedContentResult ⟨[⟨[(3 : Int), 1, 4]⟩]⟩ = ⟨[⟨[(3 : Int), 1, 4]⟩]⟩ :=
  embedContent_first_nonempty.2.2.2.2.1 ⟨[(3 : Int), 1, 4]⟩ []

/-- C8: `inferProviderFromModel` scans the registry in declaration order
(GEMINI, OPENAI, VERTEX_AI) and returns the first provider whose model list
contains the exact model string — so the duplicated `"gemini-2.5-pro"`
resolves to GEMINI, not VERTEX_AI — returns null exactly when no provider
lists the model, and is a left-inverse of the registry for any model unique
to one provider. -/
theorem inferProviderFromModel_spec :
    (∀ m : String,
      inferProviderFromModel m =
        if m ∈ SUPPORTED_MODELS .GEMINI then some .GEMINI
        else if m ∈ SUPPORTED_MODELS .OPENAI then some .OPENAI
        else if m ∈ SUPPORTED_MODELS .VERTEX_AI then some .VERTEX_AI
        else none) ∧
    (∀ m : String, inferProviderFromModel m = none ↔ ∀ p, m ∉ SUPPORTED_MODELS p) ∧
    (∀ (m : String) (p : LLMProvider),
      m ∈ SUPPORTED_MODELS p → (∀ q, q ≠ p → m ∉ SUPPORTED_MODELS q) →
        inferProviderFromModel m = some p) ∧
    inferProviderFromModel "gemini-2.5-pro" = some .GEMINI := by
  refine ⟨?_, ?_, ?_, by decide⟩
  · intro m
    by_cases hg : m ∈ SUPPORTED_MODELS .GEMINI <;>
      by_cases ho : m ∈ SUPPORTED_MODELS .OPENAI <;>
        by_cases hv : m ∈ SUPPORTED_MODELS .VERTEX_AI <;>
          simp [inferProviderFromModel, providerDeclarationOrder, List.find?, hg, ho, hv]
  · intro m
    rw [inferProviderFromModel, List.find?_eq_none]
    constructor
    · intro h p
      have hp : p ∈ providerDeclarationOrder := by cases p <;> decide
      simpa using h p hp
    · intro h p _
      simp [h p]
  · intro m p hp huni
    cases p with
    | GEMINI =>
      simp [inferProviderFromModel, providerDeclarationOrder, List.find?, hp]
    | OPENAI =>
      have hg := huni .GEMINI (by decide)
      simp [inferProviderFromModel, providerDeclarationOrder, List.find?, hp, hg]
    | VERTEX_AI =>
      have hg := huni .GEMINI (by decide)
      have ho := huni .OPENAI (by decide)
      simp [inferProviderFromModel, providerDeclarationOrder, List.find?, hp, hg, ho]

/-- C8 witness: `"gpt-4"` appears only under OPENAI, and the inference
returns OPENAI for it. -/
theorem inferProviderFromModel_spec_witness :
    inferProviderFromModel "gpt-4" = some LLMProvider.OPENAI :=
  inferProviderFromModel_spec.2.2.1 "gpt-4" .OPENAI (by decide)
    (by
      intro q hq
      cases q with
      | GEMINI => decide
      | OPENAI => exact absurd rfl hq
      | VERTEX_AI => decide)

/-- The error list of `validateConfig`, flattened to the concatenation of
its four independently-tested segments (the loop accumulates; no test
short-circuits another). -/
theorem validateConfig_errors_eq (prov : Option String) (key model : String) :
    (validateConfig ⟨prov, key, model⟩).errors =
      (if ¬ truthy prov then ["Provider is required"] else []) ++
      (if key = "" then ["API key is required"] else []) ++
      (if model = "" then ["Model is required"] else []) ++
      (if truthy prov ∧ prov.getD "" ∉ getSupportedProviders then
        ["Unsupported provider: " ++ prov.getD ""] else []) := by
  rw [validateConfig]
  by_cases hp : truthy prov <;> by_cases hk : key = "" <;> by_cases hm : model = "" <;>
    by_cases hu : prov.getD "" ∈ getSupportedProviders <;>
      simp [hp, hk, hm, hu]

/-- No `Unsupported provider: {p}` string coincides with one of the three
fixed requirement errors (their lengths differ: the prefix alone is longer
than each fixed string). -/
theorem unsupported_error_ne_fixed (p : String) :
    "Provider is required" ≠ "Unsupported provider: " ++ p ∧
    "API key is required" ≠ "Unsupported provider: " ++ p ∧
    "Model is required" ≠ "Unsupported provider: " ++ p := by
  have hlen : ("Unsupported provider: " : String).length = 22 := rfl
  have h1 : ("Provider is required" : String).length = 20 := rfl
  have h2 : ("API key is required" : String).length = 19 := rfl
  have h3 : ("Model is required" : String).length = 17 := rfl
  refine ⟨fun h => ?_, fun h => ?_, fun h => ?_⟩ <;>
  · have hc := congrArg String.length h
    rw [String.length_append, hlen] at hc
    simp only [h1, h2, h3] at hc
    omega

/-- C9: `validateConfig` accumulates errors without short-circuiting —
`Provider is required` exactly when the provider is missing or empty,
`API key is required` exactly when the key is empty, `Model is required`
exactly when the model is empty, `Unsupported provider: {p}` exactly when a
non-empty provider `p` is not among the enum values — and `valid` is true
iff the error sequence is empty; it is a total function of its input. -/
theorem validateConfig_spec :
    ∀ config : AdapterConfig,
      ((validateConfig config).valid = true ↔ (validateConfig config).errors = []) ∧
      ("Provider is required" ∈ (validateConfig config).errors ↔ truthy config.provider = false) ∧
      ("API key is required" ∈ (validateConfig config).errors ↔ config.apiKey = "") ∧
      ("Model is required" ∈ (validateConfig config).errors ↔ config.model = "") ∧
      (truthy config.provider = true →
        (("Unsupported provider: " ++ config.provider.getD "") ∈ (validateConfig config).errors ↔
          config.provider.getD "" ∉ getSupportedProviders)) := by
  intro ⟨prov, key, model⟩
  obtain ⟨hne1, hne2, hne3⟩ := unsupported_error_ne_fixed (prov.getD "")
  constructor
  · rw [validateConfig]
    exact decide_eq_true_iff
  refine ⟨?_, ?_, ?_, ?_⟩ <;>
    rw [validateConfig_errors_eq] <;>
      by_cases hp : truthy prov <;> by_cases hk : key = "" <;> by_cases hm : model = "" <;>
        by_cases hu : prov.getD "" ∉ getSupportedProviders <;>
          simp [hp, hk, hm, hu, hne1, hne2, hne3, hne1.symm, hne2.symm, hne3.symm]

/-- C9 witness: empty key, empty model and missing provider yield exactly
the three requirement errors and `valid = false`; the well-formed OPENAI
configuration yields `valid = true` with no errors. -/
theorem validateConfig_spec_witness :
    ((validateConfig ⟨none, "", ""⟩).valid = true ↔ (validateConfig ⟨none, "", ""⟩).errors = []) ∧
    ("Provider is required" ∈ (validateConfig ⟨none, "", ""⟩).errors ↔ truthy none = false) ∧
    (validateConfig ⟨none, "", ""⟩).errors =
      ["Provider is required", "API key is required", "Model is required"] ∧
    validateConfig ⟨some "openai", "sk-x", "gpt-4"⟩ = ⟨true, []⟩ ∧
    (("Unsupported provider: " ++ "foo") ∈ (validateConfig ⟨some "foo", "k", "m"⟩).errors ↔
      ("foo" : String) ∉ getSupportedProviders) :=
  ⟨(validateConfig_spec ⟨none, "", ""⟩).1, (validateConfig_spec ⟨none, "", ""⟩).2.1,
    by decide, by decide,
    (validateConfig_spec ⟨some "foo", "k", "m"⟩).2.2.2.2 (by decide)⟩

/-- A content that is a bare string or a bare array of parts fails the
`typeof content === 'object' && 'parts' in content` guard. -/
theorem contentPartsArray_none_of_bare (cs : List ContentUnion)
    (h : ∀ c ∈ cs, (∃ s, c = ContentUnion.str s) ∨ ∃ ps, c = ContentUnion.parts ps) :
    ∀ c ∈ cs, contentPartsArray c = none := by
  intro c hc
  rcases h c hc with ⟨s, rfl⟩ | ⟨ps, rfl⟩ <;> rfl

/-- Contents that all fail the parts guard contribute nothing to the
token-count extraction. -/
theorem extractTextFromRequest_no_parts (cs : List ContentUnion)
    (h : ∀ c ∈ cs, contentPartsArray c = none) :
    extractTextFromRequest (.list cs) = "" := by
  induction cs with
  | nil => rfl
  | cons c cs ih =>
    have hc : contentPartsArray c = none := h c (List.mem_cons_self c cs)
    have hstep : extractTextFromRequest (.list (c :: cs)) = extractTextFromRequest (.list cs) := by
      rw [extractTextFromRequest, extractTextFromRequest]
      simp [ContentsField.norm, List.foldl_cons, hc]
    rw [hstep]
    exact ih fun c' hc' => h c' (List.mem_cons_of_mem c hc')

/-- Contents that all fail the parts guard contribute nothing to the
embedding extraction. -/
theorem extractTextFromEmbedRequest_no_parts (cs : List ContentUnion)
    (h : ∀ c ∈ cs, contentPartsArray c = none) :
    extractTextFromEmbedRequest cs = "" := by
  induction cs with
  | nil => rfl
  | cons c cs ih =>
    have hc : contentPartsArray c = none := h c (List.mem_cons_self c cs)
    rw [extractTextFromEmbedRequest]
    rw [hc]
    exact ih fun c' hc' => h c' (List.mem_cons_of_mem c hc')

/-- C10: the extraction loops of `countTokens` and `embedContent` only read
contents that are objects carrying a `parts` array — when every content is a
bare string or a bare array of part values, the extracted text is empty,
`countTokens` returns 0, and the embedding input sent to the vendor is the
empty string. -/
theorem bareContents_extract_nothing :
    ∀ cs : List ContentUnion,
      (∀ c ∈ cs, (∃ s, c = ContentUnion.str s) ∨ ∃ ps, c = ContentUnion.parts ps) →
        extractTextFromRequest (.list cs) = "" ∧
        countTokens (.list cs) = 0 ∧
        embedContentInput (.list cs) = "" := by
  intro cs h
  have hnone := contentPartsArray_none_of_bare cs h
  have h1 := extractTextFromRequest_no_parts cs hnone
  refine ⟨h1, ?_, ?_⟩
  · rw [countTokens, h1]
    rfl
  · rw [embedContentInput]
    exact extractTextFromEmbedRequest_no_parts cs hnone

/-- C10 witness: a request whose contents are a bare string and a bare part
array — even one holding a part with text — extracts nothing: zero tokens
and an empty embedding input. -/
theorem bareContents_extract_nothing_witness :
    extractTextFromRequest
        (.list [ContentUnion.str "hello", ContentUnion.parts [Part.obj (some "x")]]) = "" ∧
    countTokens (.list [ContentUnion.str "hello", ContentUnion.parts [Part.obj (some "x")]]) = 0 ∧
    embedContentInput
        (.list [ContentUnion.str "hello", ContentUnion.parts [Part.obj (some "x")]]) = "" :=
  bareContents_extract_nothing
    [ContentUnion.str "hello", ContentUnion.parts [Part.obj (some "x")]]
    (by
      intro c hc
      simp only [List.mem_cons, List.not_mem_nil, or_false] at hc
      rcases hc with rfl | rfl
      · exact Or.inl ⟨"hello", rfl⟩
      · exact Or.inr ⟨[Part.obj (some "x")], rfl⟩)

end GeminiCli
